import Mathlib

/-!
Verification of the hybrid_pdf_parser ensemble resolution engine.

Shallow embedding of the core modules (`segmentation.py`, `heuristics.py`,
`alignment.py`, `adjudicator.py`, `provenance.py`, and the per-page selection
and adjudication portion of `pipeline.py`).  Python floats are modelled as
rationals, Python strings as character lists (`List Char`), Python
exceptions as `Except PyErr`, and the external rapidfuzz similarity function
as an explicit function parameter `ratio` on the 0–100 scale.
-/

namespace HybridPdf

/-- Decidable equality for `Except`, used to evaluate embedded computations
on concrete inputs. -/
def exceptDecEq {ε α : Type} [DecidableEq ε] [DecidableEq α] :
    (a b : Except ε α) → Decidable (a = b)
  | .ok a, .ok b =>
    if h : a = b then .isTrue (by rw [h])
    else .isFalse (by intro hh; injection hh; contradiction)
  | .ok _, .error _ => .isFalse (by intro h; exact Except.noConfusion h)
  | .error _, .ok _ => .isFalse (by intro h; exact Except.noConfusion h)
  | .error e, .error f =>
    if h : e = f then .isTrue (by rw [h])
    else .isFalse (by intro hh; injection hh; contradiction)

instance {ε α : Type} [DecidableEq ε] [DecidableEq α] : DecidableEq (Except ε α) :=
  exceptDecEq

/-- A Python string, modelled as its character list. -/
def pystr (s : String) : List Char := s.data

/-- Python `min(a, b)`: the first argument wins ties. -/
def pyMin (a b : ℚ) : ℚ := if a ≤ b then a else b

/-- Python `max(a, b)`: the first argument wins ties. -/
def pyMax (a b : ℚ) : ℚ := if b ≤ a then a else b

/-- Python `abs`. -/
def pyAbs (x : ℚ) : ℚ := if x < 0 then -x else x

/-! ## Data model (`segmentation.py`) -/

/-- `SegmentType` enum of `segmentation.py`. -/
inductive SegmentType where
  | sentence
  | paragraph
  | table
  | list_item
  | heading
deriving DecidableEq, Repr

/-- `Segment` dataclass of `segmentation.py`: text plus offsets and a type tag.
`stop` stands for the Python field `end` (a Lean keyword). -/
structure Segment where
  text : List Char
  start : Nat
  stop : Nat
  type : SegmentType
deriving DecidableEq, Repr

/-- Python truthiness of a `Segment | None` value.  `Segment.__len__` returns
`len(self.text)`, so `None` and a present segment with empty text are both
falsy. -/
def truthy : Option Segment → Bool
  | none => false
  | some s => !(s.text.isEmpty)

/-- `seg.text` for an optional segment.  Every use site is guarded by a
truthiness check that guarantees the segment is present, so the `none`
branch is unreachable. -/
def optText : Option Segment → List Char
  | none => []
  | some s => s.text

/-! ## Scoring (`heuristics.py`) -/

/-- Python exceptions that the embedded code can raise. -/
inductive PyErr where
  | zeroDivision
  | indexError
deriving DecidableEq, Repr

/-- Worker for `pySplit`: cut the text at every whitespace character. -/
def pySplitGo : List Char → List Char → List (List Char)
  | [], acc => [acc.reverse]
  | c :: cs, acc =>
    if c.isWhitespace then acc.reverse :: pySplitGo cs []
    else pySplitGo cs (c :: acc)

/-- `text.split()` in Python: split on whitespace runs, dropping empty
parts. -/
def pySplit (s : List Char) : List (List Char) :=
  (pySplitGo s []).filter (fun t => !t.isEmpty)

/-- The structural bonus table of `score_segment`. -/
def structuralBonus : SegmentType → ℚ
  | .table => 2/10
  | .list_item => 15/100
  | .heading => 1/10
  | _ => 0

/-- `score_segment` of `heuristics.py`.  Note that the source computes
`weird_count = text.count("")`, and in Python counting occurrences of the
empty string yields `len(text) + 1`. -/
def score_segment (seg : Segment) : ℚ :=
  if seg.text.isEmpty then 0
  else
    let text := seg.text
    let alnum_count : ℚ := ((text.filter Char.isAlphanum).length : ℚ)
    let alnum_ratio : ℚ := alnum_count / (text.length : ℚ)
    let weird_count : ℚ := ((text.length : ℚ) + 1)
    let weird_rate : ℚ := weird_count / (text.length : ℚ)
    let tokens := pySplit text
    let avg_token_len : ℚ :=
      if tokens.isEmpty then 0
      else (((tokens.map List.length).sum : ℕ) : ℚ) / ((tokens.length : ℕ) : ℚ)
    let score :=
      alnum_ratio * (6/10) + (1 - weird_rate) * (3/10) +
        pyMin (avg_token_len / 10) (1/10) + structuralBonus seg.type
    pyMin (pyMax score 0) 1

/-- The replacement/garble marker character U+FFFD. -/
def replacementChar : Char := ('�')

/-- Modelled from the spec: the Scorer formula of spec section 4.3, in which
`weird_char_ratio` is the fraction of characters equal to the designated
replacement/garble marker character.  This definition follows the spec's
words and exists only to be compared against `score_segment`, which follows
the source. -/
def scoreSegmentSpec (seg : Segment) : ℚ :=
  if seg.text.isEmpty then 0
  else
    let text := seg.text
    let alnum_count : ℚ := ((text.filter Char.isAlphanum).length : ℚ)
    let alnum_ratio : ℚ := alnum_count / (text.length : ℚ)
    let weird_count : ℚ := ((text.filter (fun c => c == replacementChar)).length : ℚ)
    let weird_rate : ℚ := weird_count / (text.length : ℚ)
    let tokens := pySplit text
    let avg_token_len : ℚ :=
      if tokens.isEmpty then 0
      else (((tokens.map List.length).sum : ℕ) : ℚ) / ((tokens.length : ℕ) : ℚ)
    let score :=
      alnum_ratio * (6/10) + (1 - weird_rate) * (3/10) +
        pyMin (avg_token_len / 10) (1/10) + structuralBonus seg.type
    pyMin (pyMax score 0) 1

/-! ## Selection (`heuristics.py`) -/

/-- The `source` literal of a `Choice`. -/
inductive ChoiceSource where
  | T
  | V
  | AMBIGUOUS
deriving DecidableEq, Repr

/-- `Choice` dataclass of `heuristics.py`.  The interpolated numbers of the
Python reason strings are omitted; reasons are diagnostic only. -/
structure Choice where
  source : ChoiceSource
  selected_text : List Char
  reason : List Char
deriving DecidableEq, Repr

/-- `HeuristicsConfig` of `config/schema.py`. -/
structure HeuristicsConfig where
  score_margin : ℚ
  ambiguity_band : ℚ
deriving DecidableEq, Repr

/-- The pydantic defaults: `score_margin=0.15`, `ambiguity_band=0.05`. -/
def defaultHeuristics : HeuristicsConfig := ⟨3/20, 1/20⟩

/-- Diagnostic reason strings of `choose_segment` (interpolated numbers
omitted). -/
def ambiguousReason : List Char := pystr "Ambiguous: scores too close"

def structureReason : List Char := pystr "V has structure, T does not"

def tHigherReason : List Char := pystr "T score higher"

def vHigherReason : List Char := pystr "V score higher"

def defaultReason : List Char := pystr "Default: text-first preferred"

def noSegReason : List Char := pystr "No segments available"

def tMissingReason : List Char := pystr "T segment missing"

def vMissingReason : List Char := pystr "V segment missing"

/-- Whether a segment type is one of `["table", "list_item", "heading"]`. -/
def hasStructure (s : Segment) : Bool :=
  s.type == SegmentType.table || s.type == SegmentType.list_item ||
    s.type == SegmentType.heading

/-- The tail of `choose_segment` past the ambiguity test: structural cues,
score margins, and the text-first default. -/
def chooseRest (t v : Segment) (t_score v_score : ℚ)
    (config : HeuristicsConfig) : Except PyErr Choice :=
  let v_has_structure := hasStructure v
  let t_has_structure := hasStructure t
  if v_has_structure && !t_has_structure then
    Except.ok ⟨ChoiceSource.V, v.text, structureReason⟩
  else if v_score + config.score_margin < t_score then
    Except.ok ⟨ChoiceSource.T, t.text, tHigherReason⟩
  else if t_score + config.score_margin < v_score then
    Except.ok ⟨ChoiceSource.V, v.text, vHigherReason⟩
  else
    Except.ok ⟨ChoiceSource.T, t.text, defaultReason⟩

/-- The body of `choose_segment` once both segments passed the truthiness
guards (both present with non-empty text in every reachable call): the
ambiguity test — whose length-ratio division raises `ZeroDivisionError` when
one text is empty — falling through to `chooseRest`. -/
def chooseBoth (t v : Segment) (t_score v_score : ℚ)
    (config : HeuristicsConfig) : Except PyErr Choice :=
  if pyAbs (t_score - v_score) < config.ambiguity_band then
    if min t.text.length v.text.length = 0 then Except.error PyErr.zeroDivision
    else if (3:ℚ)/2 <
        ((max t.text.length v.text.length : ℕ) : ℚ) /
          ((min t.text.length v.text.length : ℕ) : ℚ) then
      Except.ok ⟨ChoiceSource.AMBIGUOUS, [], ambiguousReason⟩
    else chooseRest t v t_score v_score config
  else chooseRest t v t_score v_score config

/-- `choose_segment` of `heuristics.py`.  The four leading guards use Python
truthiness, under which a present segment with empty text counts as
missing. -/
def choose_segment (t_seg v_seg : Option Segment) (t_score v_score : ℚ)
    (config : HeuristicsConfig) : Except PyErr Choice :=
  if !(truthy t_seg) && !(truthy v_seg) then
    Except.ok ⟨ChoiceSource.T, [], noSegReason⟩
  else if !(truthy t_seg) then
    Except.ok ⟨ChoiceSource.V, optText v_seg, tMissingReason⟩
  else if !(truthy v_seg) then
    Except.ok ⟨ChoiceSource.T, optText t_seg, vMissingReason⟩
  else
    match t_seg, v_seg with
    | some t, some v => chooseBoth t v t_score v_score config
    | _, _ => Except.ok ⟨ChoiceSource.T, [], noSegReason⟩

/-! ## Alignment (`alignment.py`)

The rapidfuzz similarity `fuzz.ratio` is an external dependency; it is
modelled as an explicit parameter `ratio : List Char → List Char → ℚ`
returning a value on the 0–100 scale. -/

/-- `AlignedPair` dataclass of `alignment.py`. -/
structure AlignedPair where
  t_seg : Option Segment
  v_seg : Option Segment
  similarity : ℚ
deriving DecidableEq, Repr

/-- `AlignedPair.is_empty`. -/
def AlignedPair.is_empty (p : AlignedPair) : Bool :=
  p.t_seg.isNone && p.v_seg.isNone

/-- The single-space separator. -/
def spaceSep : List Char := [' ']

/-- `normalize_text` of `alignment.py`: lowercase, strip, collapse whitespace
runs to single spaces (the strip is subsumed by `str.split()`). -/
def normalize_text (text : List Char) : List Char :=
  List.intercalate spaceSep (pySplit (text.map Char.toLower))

/-- The look-ahead window of `align_segments` (`window_size = 3`). -/
def windowSize : Nat := 3

/-- The matching threshold of `align_segments` (`best_similarity > 50`). -/
def matchThreshold : ℚ := 50

/-- The inner window search of `align_segments`: fold over the normalized
texts of the window with the running `(best_similarity, best_v_idx)`
accumulator, a new candidate winning only on strict improvement. -/
def bestSearch (ratio : List Char → List Char → ℚ) (tText : List Char) :
    List (List Char) → Nat → ℚ × Nat → ℚ × Nat
  | [], _, acc => acc
  | vText :: rest, i, acc =>
    let similarity := ratio tText vText
    bestSearch ratio tText rest (i + 1)
      (if acc.1 < similarity then (similarity, i) else acc)

/-- The cursor loop of `align_segments`, with the two cursors replaced by the
unconsumed suffixes of the two sequences.  The three arms are the two
exhaustion branches and the windowed-match branch of the Python `while`
loop; `best.2` is the window-relative `best_v_idx`. -/
def alignGo (ratio : List Char → List Char → ℚ) :
    List Segment → List Segment → List AlignedPair
  | [], vs => vs.map (fun v => ⟨none, some v, 0⟩)
  | t :: ts, [] => (t :: ts).map (fun u => ⟨some u, none, 0⟩)
  | t :: ts, v :: vs =>
    let tText := normalize_text t.text
    let window := ((v :: vs).take windowSize).map (fun seg => normalize_text seg.text)
    let best := bestSearch ratio tText window 0 (0, 0)
    if matchThreshold < best.1 then
      ((v :: vs).take best.2).map (fun u => (⟨none, some u, 0⟩ : AlignedPair)) ++
        ⟨some t, some ((v :: vs).getD best.2 v), best.1 / 100⟩ ::
          alignGo ratio ts ((v :: vs).drop (best.2 + 1))
    else
      ⟨some t, none, 0⟩ :: alignGo ratio ts (v :: vs)

/-- `align_segments` of `alignment.py`.  The early return for two empty
inputs coincides with the loop producing nothing. -/
def align_segments (ratio : List Char → List Char → ℚ)
    (t_segments v_segments : List Segment) : List AlignedPair :=
  alignGo ratio t_segments v_segments

/-! ## Adjudication (`adjudicator.py`, `vendors/base.py`) -/

/-- The `pick` literal of an `AdjudicationResult`. -/
inductive Pick where
  | A
  | B
deriving DecidableEq, Repr

/-- `AdjudicationResult` of `vendors/base.py`. -/
structure AdjudicationResult where
  pick : Pick
  text : List Char
deriving DecidableEq, Repr

/-- An adjudicator backend: `select` models the Python method, returning
either a result or a raised exception message; `name` models
`type(backend).__name__`. -/
structure AdjudicatorBackend where
  select : List Char → List Char → List Char → List Char →
    Except (List Char) AdjudicationResult
  name : List Char

/-- `AmbiguousPair` dataclass of `adjudicator.py`. -/
structure AmbiguousPair where
  t_seg : Segment
  v_seg : Segment
  context_before : List Char
  context_after : List Char
  page_num : Nat
  segment_idx : Nat
deriving DecidableEq, Repr

/-- Python list indexing `segments[i]` for a non-negative index: `IndexError`
when out of range. -/
def pyGet (l : List Segment) (i : Nat) : Except PyErr Segment :=
  match l.get? i with
  | some x => Except.ok x
  | none => Except.error PyErr.indexError

/-- Python `text[-n:]`: the last `n` characters. -/
def takeRightList (s : List Char) (n : Nat) : List Char :=
  s.drop (s.length - n)

/-- The default `max_length` of `build_context`. -/
def maxLengthDefault : Nat := 200

/-- The `before_text` half of `build_context`: the unguarded access
`segments[idx - 1]` whenever `idx > 0`, then up to two further preceding
segments prepended, truncated to the last `max_length` characters.
`List.range' lo (hi - lo)` is Python's `range(lo, hi)` for `lo = max(0, idx-3)`
and `hi = idx - 1` (natural subtraction supplies the `max(0, ·)`). -/
def buildContextBefore (segments : List Segment) (idx max_length : Nat) :
    Except PyErr (List Char) :=
  if 0 < idx then
    match pyGet segments (idx - 1) with
    | Except.error e => Except.error e
    | Except.ok s =>
      let b0 := takeRightList s.text max_length
      match (List.range' (idx - 3) ((idx - 1) - (idx - 3))).foldlM
          (fun acc i => (pyGet segments i).map
            (fun sg => sg.text ++ spaceSep ++ acc)) b0 with
      | Except.error e => Except.error e
      | Except.ok b => Except.ok (takeRightList b max_length)
  else Except.ok []

/-- The `after_text` half of `build_context`: guarded by
`idx < len(segments) - 1` (natural subtraction matches Python because a
non-negative index is never `< -1`). -/
def buildContextAfter (segments : List Segment) (idx max_length : Nat) :
    Except PyErr (List Char) :=
  if idx < segments.length - 1 then
    match pyGet segments (idx + 1) with
    | Except.error e => Except.error e
    | Except.ok s =>
      let a0 := s.text.take max_length
      match (List.range' (idx + 2) (min segments.length (idx + 4) - (idx + 2))).foldlM
          (fun acc i => (pyGet segments i).map
            (fun sg => acc ++ spaceSep ++ sg.text.take max_length)) a0 with
      | Except.error e => Except.error e
      | Except.ok a => Except.ok (a.take max_length)
  else Except.ok []

/-- `build_context` of `adjudicator.py`. -/
def build_context (segments : List Segment) (idx max_length : Nat) :
    Except PyErr (List Char × List Char) :=
  match buildContextBefore segments idx max_length with
  | Except.error e => Except.error e
  | Except.ok b =>
    match buildContextAfter segments idx max_length with
    | Except.error e => Except.error e
    | Except.ok a => Except.ok (b, a)

/-- The per-pair arbitration call of `adjudicate_batch`:
`backend.select(pair.context_before[:200], pair.t_seg.text, pair.v_seg.text,
pair.context_after[:200])`. -/
def selectCall (backend : AdjudicatorBackend) (p : AmbiguousPair) :
    Except (List Char) AdjudicationResult :=
  backend.select (p.context_before.take 200) p.t_seg.text p.v_seg.text
    (p.context_after.take 200)

/-- `adjudicate_batch` of `adjudicator.py`: one result per pair in input
order; a raised exception is caught per pair and replaced by the
deterministic fallback `pick=A` with the T segment's text (the printed
diagnostic is not modelled). -/
def adjudicate_batch (pairs : List AmbiguousPair) (backend : AdjudicatorBackend) :
    List AdjudicationResult :=
  pairs.map (fun p =>
    match selectCall backend p with
    | Except.ok r => r
    | Except.error _ => ⟨Pick.A, p.t_seg.text⟩)

/-! ## Provenance (`provenance.py`) -/

/-- The `source` literal of a `ProvenanceRecord`. -/
inductive RecSource where
  | T
  | V
  | LLM
deriving DecidableEq, Repr

/-- The class-level field defaults of the pydantic model `ProvenanceRecord`.
The Python class body contains `timestamp: datetime = datetime.now()`, so the
clock is read exactly once, when the class statement executes; the value read
then is stored here. -/
structure ProvenanceDefaults where
  timestamp : Nat
deriving DecidableEq, Repr

/-- Executing the `ProvenanceRecord` class body at clock value
`class_definition_time`: the single `datetime.now()` call of the `timestamp`
default happens now. -/
def provenanceClassDefaults (class_definition_time : Nat) : ProvenanceDefaults :=
  ⟨class_definition_time⟩

/-- `ProvenanceRecord` of `provenance.py` (timestamps as clock readings). -/
structure ProvenanceRecord where
  page_num : Nat
  segment_idx : Nat
  source : RecSource
  llm_pick : Option Pick
  t_score : ℚ
  v_score : ℚ
  chosen_text : List Char
  backend_used : Option (List Char)
  timestamp : Nat
deriving DecidableEq, Repr

/-- Constructing a `ProvenanceRecord` without an explicit `timestamp`
argument at clock value `construction_time`: the stored class-level default
is reused, and the construction-time clock is never consulted (the default is
a value, not a factory). -/
def mkProvenanceRecordDefault (defaults : ProvenanceDefaults)
    (construction_time : Nat) (page_num segment_idx : Nat) (source : RecSource)
    (llm_pick : Option Pick) (t_score v_score : ℚ) (chosen_text : List Char)
    (backend_used : Option (List Char)) : ProvenanceRecord :=
  { page_num := page_num, segment_idx := segment_idx, source := source,
    llm_pick := llm_pick, t_score := t_score, v_score := v_score,
    chosen_text := chosen_text, backend_used := backend_used,
    timestamp := defaults.timestamp }

/-! ## Per-page pipeline (`pipeline.py`, `PdfEnsemblePipeline.extract`)

The embedding covers one page from the aligned pairs onward: the
score-and-select loop, the ambiguous-pair collection, the optional
adjudication batch, and the merge of adjudicated resolutions. -/

/-- `heuristics.score_segment(seg) if seg else 0.0`: the truthiness guard of
the pipeline's score computation. -/
def scoreOpt : Option Segment → ℚ
  | none => 0
  | some t => if truthy (some t) then score_segment t else 0

/-- The `source` string a `Choice` contributes to a `ProvenanceRecord`.  The
pipeline only builds deterministic records for non-AMBIGUOUS choices, so the
`AMBIGUOUS` arm is unreachable there. -/
def recSourceOfChoice : ChoiceSource → RecSource
  | .T => RecSource.T
  | .V => RecSource.V
  | .AMBIGUOUS => RecSource.T

/-- The `for seg_idx, pair in enumerate(aligned_pairs)` loop of
`PdfEnsemblePipeline.extract` (pipeline.py lines 117–161).  Empty pairs are
skipped.  For an AMBIGUOUS choice the pair is recorded for adjudication when
both sides are truthy (building context with the pair's enumeration index
`seg_idx` against the owning input sequence), a fallback `Choice` is built in
the source but never used, and — because the `else` belongs to the AMBIGUOUS
test — no segment and no record is appended.  For a deterministic choice the
text and a record are appended. -/
def selectLoop (defaults : ProvenanceDefaults) (config : HeuristicsConfig)
    (page_num : Nat) (t_segments v_segments : List Segment) :
    List AlignedPair → Nat →
    Except PyErr (List (List Char) × List ProvenanceRecord × List AmbiguousPair)
  | [], _ => Except.ok ([], [], [])
  | pair :: rest, seg_idx =>
    if pair.is_empty then
      selectLoop defaults config page_num t_segments v_segments rest (seg_idx + 1)
    else
      let t_score := scoreOpt pair.t_seg
      let v_score := scoreOpt pair.v_seg
      match choose_segment pair.t_seg pair.v_seg t_score v_score config with
      | Except.error e => Except.error e
      | Except.ok choice =>
        if choice.source = ChoiceSource.AMBIGUOUS then
          let ambStep : Except PyErr (List AmbiguousPair) :=
            if truthy pair.t_seg && truthy pair.v_seg then
              match build_context
                  (if truthy pair.t_seg then t_segments else v_segments)
                  seg_idx maxLengthDefault with
              | Except.error e => Except.error e
              | Except.ok (cb, ca) =>
                match pair.t_seg, pair.v_seg with
                | some t, some v =>
                  Except.ok [⟨t, v, cb, ca, page_num, seg_idx⟩]
                | _, _ => Except.ok []
            else Except.ok []
          match ambStep with
          | Except.error e => Except.error e
          | Except.ok ambs =>
            match selectLoop defaults config page_num t_segments v_segments
                rest (seg_idx + 1) with
            | Except.error e => Except.error e
            | Except.ok (segs, recs, ambRest) =>
              Except.ok (segs, recs, ambs ++ ambRest)
        else
          match selectLoop defaults config page_num t_segments v_segments
              rest (seg_idx + 1) with
          | Except.error e => Except.error e
          | Except.ok (segs, recs, ambRest) =>
            Except.ok (choice.selected_text :: segs,
              mkProvenanceRecordDefault defaults 0 page_num seg_idx
                (recSourceOfChoice choice.source) none t_score v_score
                choice.selected_text none :: recs,
              ambRest)

/-- The adjudication merge of `PdfEnsemblePipeline.extract` (pipeline.py
lines 163–185): for each result (paired positionally with its
`AmbiguousPair`), the chosen text is the T text for pick `A` and the V text
for pick `B` (the result's own `text` field is ignored), appended together
with a `source="LLM"` record carrying `llm_pick`, recomputed scores and the
backend's type name. -/
def mergeAdjudicated (defaults : ProvenanceDefaults) (backend_name : List Char)
    (ambiguous_pairs : List AmbiguousPair)
    (results : List AdjudicationResult) :
    List (List Char) × List ProvenanceRecord :=
  ((results.zip ambiguous_pairs).map (fun pr =>
    let result := pr.1
    let pair := pr.2
    let llm_pick := result.pick
    let selected_text := if llm_pick = Pick.A then pair.t_seg.text else pair.v_seg.text
    (selected_text,
      mkProvenanceRecordDefault defaults 0 pair.page_num pair.segment_idx
        RecSource.LLM (some llm_pick) (scoreOpt (some pair.t_seg))
        (scoreOpt (some pair.v_seg)) selected_text (some backend_name)))).unzip

/-- One page of `PdfEnsemblePipeline.extract` from segmentation output
onward: align, select, then — when ambiguous pairs exist and an adjudicator
backend is configured — adjudicate and append the resolutions at the end of
the page's segment and record lists. -/
def pageProcess (defaults : ProvenanceDefaults) (config : HeuristicsConfig)
    (ratio : List Char → List Char → ℚ) (backend : Option AdjudicatorBackend)
    (page_num : Nat) (t_segments v_segments : List Segment) :
    Except PyErr (List (List Char) × List ProvenanceRecord) :=
  let aligned_pairs := align_segments ratio t_segments v_segments
  match selectLoop defaults config page_num t_segments v_segments aligned_pairs 0 with
  | Except.error e => Except.error e
  | Except.ok (segs, recs, ambs) =>
    match backend with
    | some b =>
      if ambs.isEmpty then Except.ok (segs, recs)
      else
        let results := adjudicate_batch ambs b
        let merged := mergeAdjudicated defaults b.name ambs results
        Except.ok (segs ++ merged.1, recs ++ merged.2)
    | none => Except.ok (segs, recs)

/-- The blank-line separator: `"\n\n".join(all_segments)`. -/
def blankLineSep : List Char := ['\n', '\n']

/-- The final markdown assembly over the emitted segment texts. -/
def joinMarkdown (segs : List (List Char)) : List Char :=
  List.intercalate blankLineSep segs

/-! ## Concrete inputs used by the closed theorems and witnesses -/

/-- A T segment whose score is 5/8 under `score_segment`. -/
def tZ : Segment := ⟨['z', 'z', 'z', 'z'], 0, 4, SegmentType.sentence⟩

/-- A V segment whose score is 23/35: within the ambiguity band of `tZ`'s
score, with length ratio 7/4 > 1.5. -/
def vZ : Segment := ⟨['z', 'z', 'z', 'z', 'z', 'z', 'z'], 0, 7, SegmentType.sentence⟩

/-- A short filler V segment. -/
def qSeg : Segment := ⟨['q'], 0, 1, SegmentType.sentence⟩

/-- A one-letter segment, scored 2/5 by the source and 1 by the spec
formula. -/
def segA : Segment := ⟨['a'], 0, 1, SegmentType.sentence⟩

/-- A present segment with empty text. -/
def tEmpty : Segment := ⟨[], 0, 0, SegmentType.sentence⟩

/-- A present segment with non-empty text. -/
def vHello : Segment := ⟨['h', 'e', 'l', 'l', 'o'], 0, 5, SegmentType.sentence⟩

/-- A similarity function valuation matching only `tZ` against `vZ` (at 60,
above the threshold).  The external rapidfuzz ratio is a free parameter of
the embedding; this is one possible valuation. -/
def ratioC1 : List Char → List Char → ℚ := fun a b =>
  if a == ['z', 'z', 'z', 'z'] && b == ['z', 'z', 'z', 'z', 'z', 'z', 'z'] then 60 else 0

/-- A similarity valuation matching anything against `vZ`'s text at 60 and
everything else at 0: makes two V-only pairs precede the matched pair. -/
def ratio9 : List Char → List Char → ℚ := fun _ b =>
  if b == ['z', 'z', 'z', 'z', 'z', 'z', 'z'] then 60 else 0

/-- The constant-100 similarity valuation. -/
def ratio100 : List Char → List Char → ℚ := fun _ _ => 100

/-- The exception message of `raisingBackend`. -/
def boomMsg : List Char := pystr "boom"

/-- An adjudicator backend whose `select` always raises. -/
def raisingBackend : AdjudicatorBackend :=
  ⟨fun _ _ _ _ => Except.error boomMsg, pystr "RaisingBackend"⟩

/-- Default segment for `List.getD`. -/
def dummySeg : Segment := ⟨[], 0, 0, SegmentType.sentence⟩

/-- Default ambiguous pair for `List.getD`. -/
def dummyAmb : AmbiguousPair := ⟨dummySeg, dummySeg, [], [], 0, 0⟩

/-- Default adjudication result for `List.getD`. -/
def dummyRes : AdjudicationResult := ⟨Pick.A, []⟩

/-- The ambiguous pair the pipeline builds from `tZ` and `vZ` at index 0. -/
def ambP : AmbiguousPair := ⟨tZ, vZ, [], [], 0, 0⟩

/-! # Theorems -/

/-! ## Concrete evaluations shared by several results -/

theorem score_tZ : score_segment tZ = 5/8 := by
  simp +decide [score_segment, tZ, pySplit, pySplitGo, pyMin, pyMax, structuralBonus]
  norm_num

theorem score_vZ : score_segment vZ = 23/35 := by
  simp +decide [score_segment, vZ, pySplit, pySplitGo, pyMin, pyMax, structuralBonus]
  norm_num

theorem score_qSeg : score_segment qSeg = 2/5 := by
  simp +decide [score_segment, qSeg, pySplit, pySplitGo, pyMin, pyMax, structuralBonus]
  norm_num

theorem align_tZ_vZ : align_segments ratioC1 [tZ] [vZ] = [⟨some tZ, some vZ, 3/5⟩] := by
  have hn1 : normalize_text tZ.text = tZ.text := by decide
  have hn2 : normalize_text vZ.text = vZ.text := by decide
  have hr : ratioC1 tZ.text vZ.text = 60 := by
    have hb : (tZ.text == ['z', 'z', 'z', 'z'] &&
        vZ.text == ['z', 'z', 'z', 'z', 'z', 'z', 'z']) = true := by decide
    simp [ratioC1, hb]
  simp only [align_segments, alignGo, windowSize, List.take, List.map, bestSearch,
    hn1, hn2, hr]
  norm_num [matchThreshold]

theorem choose_tZ_vZ :
    choose_segment (some tZ) (some vZ) (5/8) (23/35) defaultHeuristics =
      Except.ok ⟨ChoiceSource.AMBIGUOUS, [], ambiguousReason⟩ := by
  norm_num [choose_segment, chooseBoth, truthy, defaultHeuristics, pyAbs, tZ, vZ]

theorem select_tZ_vZ :
    selectLoop ⟨0⟩ defaultHeuristics 0 [tZ] [vZ] [⟨some tZ, some vZ, 3/5⟩] 0 =
      Except.ok ([], [], [ambP]) := by
  have hempty : (⟨some tZ, some vZ, 3/5⟩ : AlignedPair).is_empty = false := by decide
  have ht : truthy (some tZ) = true := by decide
  have hv : truthy (some vZ) = true := by decide
  have hso1 : scoreOpt (some tZ) = 5/8 := by simp [scoreOpt, ht, score_tZ]
  have hso2 : scoreOpt (some vZ) = 23/35 := by simp [scoreOpt, hv, score_vZ]
  have hbc : build_context [tZ] 0 maxLengthDefault = Except.ok ([], []) := by decide
  simp only [selectLoop, hempty, Bool.false_eq_true, if_false, hso1, hso2, choose_tZ_vZ,
    ht, hv, Bool.and_self, if_true, hbc, List.append_nil, ambP]

/-! ## C1 -/

/-- C1: on a page whose single aligned pair has both sides present but is
selected AMBIGUOUS, and with no adjudicator backend configured, the pipeline
emits no output segment and no ProvenanceRecord at all — the pair is
dropped, contradicting the claim that every aligned pair with at least one
side present yields exactly one segment and one record. -/
theorem claim_C1 :
    align_segments ratioC1 [tZ] [vZ] = [⟨some tZ, some vZ, 3/5⟩] ∧
    (⟨some tZ, some vZ, 3/5⟩ : AlignedPair).is_empty = false ∧
    pageProcess ⟨0⟩ defaultHeuristics ratioC1 none 0 [tZ] [vZ] = Except.ok ([], []) := by
  refine ⟨align_tZ_vZ, by decide, ?_⟩
  simp only [pageProcess, align_tZ_vZ, select_tZ_vZ]

/-! ## C3 -/

/-- C3: for the non-empty one-character segment `segA`, the source's
`score_segment` (whose `text.count("")` counts `len(text) + 1` empty-string
occurrences) yields 2/5, while the spec formula — `weird_char_ratio` the
fraction of replacement-marker characters — yields 1; the code disagrees
with the claimed formula. -/
theorem claim_C3 :
    segA.text ≠ [] ∧ score_segment segA = 2/5 ∧ scoreSegmentSpec segA = 1 ∧
    score_segment segA ≠ scoreSegmentSpec segA := by
  refine ⟨by decide, ?_, ?_, ?_⟩
  · simp +decide [score_segment, segA, pySplit, pySplitGo, pyMin, pyMax, structuralBonus]
    norm_num
  · simp +decide [scoreSegmentSpec, segA, pySplit, pySplitGo, pyMin, pyMax, structuralBonus]
    norm_num
  · have h1 : score_segment segA = 2/5 := by
      simp +decide [score_segment, segA, pySplit, pySplitGo, pyMin, pyMax, structuralBonus]
      norm_num
    have h2 : scoreSegmentSpec segA = 1 := by
      simp +decide [scoreSegmentSpec, segA, pySplit, pySplitGo, pyMin, pyMax, structuralBonus]
      norm_num
    rw [h1, h2]
    norm_num

/-! ## C8 -/

/-- C8: `score_segment` always lies in [0, 1], and a segment with empty text
scores exactly 0. -/
theorem claim_C8 (seg : Segment) :
    0 ≤ score_segment seg ∧ score_segment seg ≤ 1 ∧
      (seg.text = [] → score_segment seg = 0) := by
  unfold score_segment
  cases hE : seg.text.isEmpty with
  | true =>
    rw [if_pos rfl]
    exact ⟨le_refl 0, by norm_num, fun _ => rfl⟩
  | false =>
    simp only [hE, Bool.false_eq_true, if_false]
    refine ⟨?_, ?_, ?_⟩
    · unfold pyMin pyMax
      split_ifs <;> linarith
    · unfold pyMin pyMax
      split_ifs <;> linarith
    · intro h0
      rw [h0] at hE
      simp at hE

/-- Witness for C8 at the empty segment. -/
theorem claim_C8_witness :
    0 ≤ score_segment tEmpty ∧ score_segment tEmpty ≤ 1 ∧ score_segment tEmpty = 0 :=
  ⟨(claim_C8 tEmpty).1, (claim_C8 tEmpty).2.1, (claim_C8 tEmpty).2.2 rfl⟩

/-! ## C2 -/

/-- Counterexample to C2 as stated: with both segments present, T's text
empty, equal scores (difference 0 < ambiguity band), `choose_segment`
returns source V — the empty side trips the truthiness guard and is treated
as missing — not AMBIGUOUS. -/
theorem claim_C2_cex :
    choose_segment (some tEmpty) (some vHello) (1/2) (1/2) defaultHeuristics =
      Except.ok ⟨ChoiceSource.V, vHello.text, tMissingReason⟩ ∧
    ChoiceSource.V ≠ ChoiceSource.AMBIGUOUS := by
  constructor
  · simp [choose_segment, truthy, tEmpty, vHello, optText]
  · decide

/-- C2 (amended): when both segments are present and exactly one side's text
is empty, `choose_segment` raises no exception — the length-ratio division
is never reached because `Segment.__len__` makes the empty side falsy — and
it returns the other side: source V with the V text when T's text is empty,
source T with the T text when V's text is empty, for any scores. -/
theorem claim_C2 (t v : Segment) (t_score v_score : ℚ) (config : HeuristicsConfig) :
    (t.text = [] → v.text ≠ [] →
      choose_segment (some t) (some v) t_score v_score config =
        Except.ok ⟨ChoiceSource.V, v.text, tMissingReason⟩) ∧
    (t.text ≠ [] → v.text = [] →
      choose_segment (some t) (some v) t_score v_score config =
        Except.ok ⟨ChoiceSource.T, t.text, vMissingReason⟩) := by
  constructor
  · intro h1 h2
    simp [choose_segment, truthy, optText, h1, h2]
  · intro h1 h2
    simp [choose_segment, truthy, optText, h1, h2]

/-- Witness for C2 at `tEmpty`/`vHello` with zero scores. -/
theorem claim_C2_witness :
    choose_segment (some tEmpty) (some vHello) 0 0 defaultHeuristics =
      Except.ok ⟨ChoiceSource.V, vHello.text, tMissingReason⟩ :=
  (claim_C2 tEmpty vHello 0 0 defaultHeuristics).1 rfl (by decide)

/-! ## C4 -/

/-- C4 (amended): when the backend's arbitration call raises for a pair, no
exception escapes `adjudicate_batch` (it is total), the batch returns
exactly one resolution per input pair in input order, the failing pair's
resolution is pick A with the T segment's text — but the pipeline's
adjudication merge then records every adjudicated pair, fallback included,
with `source = LLM`. -/
theorem claim_C4 (pairs : List AmbiguousPair) (backend : AdjudicatorBackend)
    (defaults : ProvenanceDefaults) (i : Nat) (hi : i < pairs.length)
    (e : List Char)
    (herr : selectCall backend (pairs.getD i dummyAmb) = Except.error e) :
    (adjudicate_batch pairs backend).length = pairs.length ∧
    (adjudicate_batch pairs backend).getD i dummyRes =
      ⟨Pick.A, (pairs.getD i dummyAmb).t_seg.text⟩ ∧
    ∀ rec ∈ (mergeAdjudicated defaults backend.name pairs
        (adjudicate_batch pairs backend)).2, rec.source = RecSource.LLM := by
  refine ⟨by simp [adjudicate_batch], ?_, ?_⟩
  · have hp : pairs.getD i dummyAmb = pairs[i] := by
      simp [List.getD_eq_getElem?_getD, List.getElem?_eq_getElem hi]
    have hmap : (adjudicate_batch pairs backend)[i]? =
        some (match selectCall backend pairs[i] with
          | Except.ok r => r
          | Except.error _ => ⟨Pick.A, pairs[i].t_seg.text⟩) := by
      simp [adjudicate_batch, List.getElem?_map, List.getElem?_eq_getElem hi]
    rw [hp] at herr
    simp [List.getD_eq_getElem?_getD, hmap, herr, List.getElem?_eq_getElem hi]
  · intro rec hrec
    simp only [mergeAdjudicated, List.unzip_snd, List.map_map, List.mem_map] at hrec
    obtain ⟨pr, _, hpr⟩ := hrec
    rw [← hpr]
    rfl

/-- Witness for C4: the singleton batch `[ambP]` against the always-raising
backend. -/
theorem claim_C4_witness :
    selectCall raisingBackend (([ambP] : List AmbiguousPair).getD 0 dummyAmb) =
      Except.error boomMsg ∧
    ((adjudicate_batch [ambP] raisingBackend).length = ([ambP] : List AmbiguousPair).length ∧
      (adjudicate_batch [ambP] raisingBackend).getD 0 dummyRes =
        ⟨Pick.A, (([ambP] : List AmbiguousPair).getD 0 dummyAmb).t_seg.text⟩ ∧
      ∀ rec ∈ (mergeAdjudicated ⟨0⟩ raisingBackend.name [ambP]
          (adjudicate_batch [ambP] raisingBackend)).2, rec.source = RecSource.LLM) :=
  ⟨rfl, claim_C4 [ambP] raisingBackend ⟨0⟩ 0 (by decide) boomMsg rfl⟩

/-- Counterexample to C4's last conjunct: on the page whose single aligned
pair is AMBIGUOUS, with the always-raising backend, the pipeline emits the
fallback T text but its ProvenanceRecord carries `source = LLM` (with
`llm_pick = A`). -/
theorem claim_C4_cex :
    pageProcess ⟨0⟩ defaultHeuristics ratioC1 (some raisingBackend) 0 [tZ] [vZ] =
      Except.ok ([tZ.text],
        [mkProvenanceRecordDefault ⟨0⟩ 0 0 0 RecSource.LLM (some Pick.A)
          (5/8) (23/35) tZ.text (some raisingBackend.name)]) ∧
    RecSource.LLM ≠ RecSource.T := by
  constructor
  · have ht : truthy (some tZ) = true := by decide
    have hv : truthy (some vZ) = true := by decide
    have hso1 : scoreOpt (some tZ) = 5/8 := by simp [scoreOpt, ht, score_tZ]
    have hso2 : scoreOpt (some vZ) = 23/35 := by simp [scoreOpt, hv, score_vZ]
    have hbatch : adjudicate_batch [⟨tZ, vZ, [], [], 0, 0⟩] raisingBackend =
        [⟨Pick.A, tZ.text⟩] := by
      simp [adjudicate_batch, selectCall, raisingBackend]
    simp only [pageProcess, align_tZ_vZ, select_tZ_vZ, List.isEmpty_cons, hbatch,
      mergeAdjudicated, List.zip_cons_cons, List.zip_nil_right, List.map_cons,
      List.map_nil, List.unzip_cons, List.unzip_nil, ambP, hso1, hso2]
    simp
  · decide

/-! ## C9 -/

theorem choose_none_qSeg :
    choose_segment none (some qSeg) 0 (2/5) defaultHeuristics =
      Except.ok ⟨ChoiceSource.V, qSeg.text, tMissingReason⟩ := by
  have hq : truthy (some qSeg) = true := by decide
  simp [choose_segment, truthy, hq, optText]
  decide

theorem align_ratio9 : align_segments ratio9 [tZ] [qSeg, qSeg, vZ] =
    [⟨none, some qSeg, 0⟩, ⟨none, some qSeg, 0⟩, ⟨some tZ, some vZ, 3/5⟩] := by
  have hn1 : normalize_text tZ.text = tZ.text := by decide
  have hnq : normalize_text qSeg.text = qSeg.text := by decide
  have hn2 : normalize_text vZ.text = vZ.text := by decide
  have hr0 : ratio9 tZ.text qSeg.text = 0 := by
    have hb : (qSeg.text == ['z', 'z', 'z', 'z', 'z', 'z', 'z']) = false := by decide
    simp [ratio9, hb]
  have hr60 : ratio9 tZ.text vZ.text = 60 := by
    have hb : (vZ.text == ['z', 'z', 'z', 'z', 'z', 'z', 'z']) = true := by decide
    simp [ratio9, hb]
  simp only [align_segments, alignGo, windowSize, List.take, List.map, bestSearch,
    hn1, hnq, hn2, hr0, hr60]
  norm_num [matchThreshold]

theorem select_ratio9 :
    selectLoop ⟨0⟩ defaultHeuristics 0 [tZ] [qSeg, qSeg, vZ]
      [⟨none, some qSeg, 0⟩, ⟨none, some qSeg, 0⟩, ⟨some tZ, some vZ, 3/5⟩] 0 =
      Except.error PyErr.indexError := by
  have he1 : (⟨none, some qSeg, 0⟩ : AlignedPair).is_empty = false := by decide
  have he2 : (⟨some tZ, some vZ, 3/5⟩ : AlignedPair).is_empty = false := by decide
  have hq : truthy (some qSeg) = true := by decide
  have ht : truthy (some tZ) = true := by decide
  have hv : truthy (some vZ) = true := by decide
  have hson : scoreOpt (none : Option Segment) = 0 := rfl
  have hsoq : scoreOpt (some qSeg) = 2/5 := by simp [scoreOpt, hq, score_qSeg]
  have hso1 : scoreOpt (some tZ) = 5/8 := by simp [scoreOpt, ht, score_tZ]
  have hso2 : scoreOpt (some vZ) = 23/35 := by simp [scoreOpt, hv, score_vZ]
  have hbc : build_context [tZ] 2 maxLengthDefault = Except.error PyErr.indexError := by
    decide
  simp only [selectLoop, he1, he2, Bool.false_eq_true, if_false, hson, hsoq, hso1, hso2,
    choose_none_qSeg, choose_tZ_vZ, truthy, Bool.false_and, Bool.and_self, ht, hv,
    if_true, hbc]
  simp [hbc, (by decide : ¬tZ.text = []), (by decide : ¬vZ.text = [])]

/-- C9: `build_context` performs the unguarded access `segments[idx - 1]`
whenever `idx > 0`, so it raises IndexError for every `idx > len(segments)`;
and the pipeline passes the aligned-pair enumeration index, which exceeds
`len(t_segments)` when V-only pairs precede the ambiguous pair — on
`[tZ]` versus `[qSeg, qSeg, vZ]` the both-present pair sits at index 2 > 1
and the page run raises IndexError. -/
theorem claim_C9 :
    (∀ (segments : List Segment) (idx : Nat), segments.length < idx →
        build_context segments idx maxLengthDefault = Except.error PyErr.indexError) ∧
    ((align_segments ratio9 [tZ] [qSeg, qSeg, vZ]).getD 2 ⟨none, none, 0⟩ =
        ⟨some tZ, some vZ, 3/5⟩ ∧
      ([tZ] : List Segment).length < 2 ∧
      pageProcess ⟨0⟩ defaultHeuristics ratio9 none 0 [tZ] [qSeg, qSeg, vZ] =
        Except.error PyErr.indexError) := by
  constructor
  · intro segments idx h
    have h0 : 0 < idx := by omega
    have hn : segments[idx - 1]? = none := by
      rw [List.getElem?_eq_none_iff]
      omega
    simp [build_context, buildContextBefore, pyGet, hn, h0]
  · refine ⟨?_, by decide, ?_⟩
    · rw [align_ratio9]
      rfl
    · simp only [pageProcess, align_ratio9, select_ratio9]

/-- Witness for C9's universally quantified half: the empty segment list at
index 1. -/
theorem claim_C9_witness :
    ([] : List Segment).length < 1 ∧
      build_context [] 1 maxLengthDefault = Except.error PyErr.indexError :=
  ⟨by decide, claim_C9.1 [] 1 (by decide)⟩

/-! ## C5 -/

/-- The window search's best index stays below any bound dominating both the
starting accumulator index and every enumerated window position. -/
theorem bestSearch_snd_lt (ratio : List Char → List Char → ℚ) (tText : List Char) :
    ∀ (cands : List (List Char)) (i : Nat) (acc : ℚ × Nat) (n : Nat),
      acc.2 < n → i + cands.length ≤ n →
      (bestSearch ratio tText cands i acc).2 < n := by
  intro cands
  induction cands with
  | nil =>
    intro i acc n h1 _
    simpa [bestSearch] using h1
  | cons c cs ih =>
    intro i acc n h1 h2
    simp only [bestSearch]
    apply ih
    · by_cases hc : acc.1 < ratio tText c
      · simp only [hc, if_true]
        simp only [List.length_cons] at h2
        omega
      · simpa [hc] using h1
    · simp only [List.length_cons] at h2
      omega

/-- Splitting a list at a valid index. -/
theorem take_getD_drop {α : Type} (l : List α) (j : Nat) (d : α) (h : j < l.length) :
    l.take j ++ l.getD j d :: l.drop (j + 1) = l := by
  have h1 : l.getD j d = l[j] := by
    simp [List.getD_eq_getElem?_getD, List.getElem?_eq_getElem h]
  rw [h1, ← List.drop_eq_getElem_cons h, List.take_append_drop]

/-- V-only pairs contribute no T component. -/
theorem filterMap_vonly_t (l : List Segment) :
    (l.map (fun u => (⟨none, some u, 0⟩ : AlignedPair))).filterMap
      AlignedPair.t_seg = [] := by
  rw [List.filterMap_map]
  simp

/-- V-only pairs contribute exactly their V components. -/
theorem filterMap_vonly_v (l : List Segment) :
    (l.map (fun u => (⟨none, some u, 0⟩ : AlignedPair))).filterMap
      AlignedPair.v_seg = l := by
  rw [List.filterMap_map]
  rw [show (AlignedPair.v_seg ∘ fun u => (⟨none, some u, 0⟩ : AlignedPair)) =
    some from rfl]
  exact List.filterMap_some l

/-- T-only pairs contribute exactly their T components. -/
theorem filterMap_tonly_t (l : List Segment) :
    (l.map (fun u => (⟨some u, none, 0⟩ : AlignedPair))).filterMap
      AlignedPair.t_seg = l := by
  rw [List.filterMap_map]
  rw [show (AlignedPair.t_seg ∘ fun u => (⟨some u, none, 0⟩ : AlignedPair)) =
    some from rfl]
  exact List.filterMap_some l

/-- T-only pairs contribute no V component. -/
theorem filterMap_tonly_v (l : List Segment) :
    (l.map (fun u => (⟨some u, none, 0⟩ : AlignedPair))).filterMap
      AlignedPair.v_seg = [] := by
  rw [List.filterMap_map]
  simp

/-- The alignment loop consumes both sequences exactly: reading off the T
components of its output gives back the T input, and likewise for V. -/
theorem alignGo_filterMap (ratio : List Char → List Char → ℚ) :
    ∀ (ts vs : List Segment),
      ((alignGo ratio ts vs).filterMap AlignedPair.t_seg = ts) ∧
      ((alignGo ratio ts vs).filterMap AlignedPair.v_seg = vs) := by
  intro ts
  induction ts with
  | nil =>
    intro vs
    exact ⟨filterMap_vonly_t vs, filterMap_vonly_v vs⟩
  | cons t ts ih =>
    intro vs
    cases vs with
    | nil =>
      exact ⟨filterMap_tonly_t (t :: ts), filterMap_tonly_v (t :: ts)⟩
    | cons v vs =>
      have hb : (bestSearch ratio (normalize_text t.text)
          (((v :: vs).take windowSize).map (fun seg => normalize_text seg.text))
          0 (0, 0)).2 < (v :: vs).length := by
        apply bestSearch_snd_lt
        · simp
        · simp [List.length_take]
      simp only [alignGo]
      split
      · refine ⟨?_, ?_⟩
        · rw [List.filterMap_append, filterMap_vonly_t]
          simp [List.filterMap_cons, ih]
        · rw [List.filterMap_append, filterMap_vonly_v]
          simp only [List.filterMap_cons, ih]
          exact take_getD_drop (v :: vs) _ v hb
      · refine ⟨?_, ?_⟩ <;> simp [List.filterMap_cons, ih]

/-- C5: for any two input sequences (including empty ones) `align_segments`
is total — the embedding is a terminating function — and every input segment
appears in exactly one output pair: the T components of the output, in
order, are exactly the T input, and likewise for V. -/
theorem claim_C5 (ratio : List Char → List Char → ℚ)
    (t_segments v_segments : List Segment) :
    (align_segments ratio t_segments v_segments).filterMap AlignedPair.t_seg =
      t_segments ∧
    (align_segments ratio t_segments v_segments).filterMap AlignedPair.v_seg =
      v_segments :=
  alignGo_filterMap ratio t_segments v_segments

/-! ## C6 -/

/-- Once the accumulator has hit the maximal similarity 100, later window
entries never displace it (strict improvement is required). -/
theorem bestSearch_stays (ratio : List Char → List Char → ℚ) (tText : List Char)
    (hle : ∀ a b, ratio a b ≤ 100) :
    ∀ (cands : List (List Char)) (i j : Nat),
      bestSearch ratio tText cands i (100, j) = (100, j) := by
  intro cands
  induction cands with
  | nil => intro i j; rfl
  | cons c cs ih =>
    intro i j
    simp only [bestSearch]
    rw [if_neg (not_lt.mpr (hle tText c))]
    exact ih (i + 1) j

/-- Aligning a sequence against itself pairs each segment with itself at
similarity 1. -/
theorem alignGo_self (ratio : List Char → List Char → ℚ)
    (hrefl : ∀ s, ratio s s = 100) (hle : ∀ a b, ratio a b ≤ 100) :
    ∀ S : List Segment,
      alignGo ratio S S = S.map (fun s => ⟨some s, some s, 1⟩) := by
  intro S
  induction S with
  | nil => rfl
  | cons s ss ih =>
    simp only [alignGo]
    have hw : ((s :: ss).take windowSize).map (fun seg => normalize_text seg.text) =
        normalize_text s.text ::
          (ss.take 2).map (fun seg => normalize_text seg.text) := by
      simp [windowSize]
    rw [hw]
    have hbs : bestSearch ratio (normalize_text s.text)
        (normalize_text s.text ::
          (ss.take 2).map (fun seg => normalize_text seg.text)) 0 (0, 0) =
        (100, 0) := by
      simp only [bestSearch, hrefl]
      rw [if_pos (by norm_num)]
      exact bestSearch_stays ratio _ hle _ 1 0
    rw [hbs]
    rw [if_pos (by norm_num [matchThreshold])]
    simp only [List.take_zero, List.map_nil, List.nil_append, List.getD_cons_zero,
      List.drop_succ_cons, List.drop_zero, ih]
    norm_num

/-- C6: aligning a non-empty sequence with itself yields one pair per index,
matching each segment with itself at similarity 1, for any similarity
function that is 100 on equal texts and bounded by 100. -/
theorem claim_C6 (ratio : List Char → List Char → ℚ)
    (hrefl : ∀ s, ratio s s = 100) (hle : ∀ a b, ratio a b ≤ 100)
    (S : List Segment) (hS : S ≠ []) :
    align_segments ratio S S = S.map (fun s => ⟨some s, some s, 1⟩) :=
  alignGo_self ratio hrefl hle S

/-- Witness for C6 with the constant-100 similarity on `[tZ]`. -/
theorem claim_C6_witness :
    (∀ s, ratio100 s s = 100) ∧ (∀ a b, ratio100 a b ≤ 100) ∧
      ([tZ] : List Segment) ≠ [] ∧
      align_segments ratio100 [tZ] [tZ] = [⟨some tZ, some tZ, 1⟩] :=
  ⟨fun _ => rfl, fun _ _ => le_refl 100, by decide,
    claim_C6 ratio100 (fun _ => rfl) (fun _ _ => le_refl 100) [tZ] (by decide)⟩

/-! ## C7 -/

/-- Aligning against an empty V sequence emits each T segment unmatched, in
order. -/
theorem alignGo_nil_right (ratio : List Char → List Char → ℚ) :
    ∀ ts : List Segment,
      alignGo ratio ts [] = ts.map (fun u => ⟨some u, none, 0⟩) := by
  intro ts
  cases ts <;> rfl

/-- C7: a non-empty T sequence of non-empty-text segments aligned against an
empty V sequence yields the pairs `(T[i], None, 0)` in order, and
`choose_segment` resolves every such pair to source T with that segment's
text, for any scores. -/
theorem claim_C7 (ratio : List Char → List Char → ℚ) (config : HeuristicsConfig)
    (ts : List Segment) (hne : ts ≠ []) (htext : ∀ s ∈ ts, s.text ≠ []) :
    align_segments ratio ts [] = ts.map (fun u => ⟨some u, none, 0⟩) ∧
    ∀ s ∈ ts, ∀ t_score v_score : ℚ,
      choose_segment (some s) none t_score v_score config =
        Except.ok ⟨ChoiceSource.T, s.text, vMissingReason⟩ := by
  refine ⟨alignGo_nil_right ratio ts, ?_⟩
  intro s hs t_score v_score
  have h := htext s hs
  simp [choose_segment, truthy, optText, h]

/-- Witness for C7 on the singleton sequence `[tZ]`. -/
theorem claim_C7_witness :
    ([tZ] : List Segment) ≠ [] ∧
    (align_segments ratio100 [tZ] [] = [⟨some tZ, none, 0⟩] ∧
      ∀ s ∈ ([tZ] : List Segment), ∀ t_score v_score : ℚ,
        choose_segment (some s) none t_score v_score defaultHeuristics =
          Except.ok ⟨ChoiceSource.T, s.text, vMissingReason⟩) :=
  ⟨by decide, claim_C7 ratio100 defaultHeuristics [tZ] (by decide) (by decide)⟩

/-! ## C10 -/

/-- C10: the `timestamp` default of `ProvenanceRecord` is evaluated once at
class-definition time, so two records constructed without an explicit
timestamp at different construction times carry equal timestamps. -/
theorem claim_C10 (class_definition_time n1 n2 p1 i1 p2 i2 : Nat)
    (src1 src2 : RecSource) (lp1 lp2 : Option Pick) (ts1 vs1 ts2 vs2 : ℚ)
    (ct1 ct2 : List Char) (bu1 bu2 : Option (List Char)) :
    (mkProvenanceRecordDefault (provenanceClassDefaults class_definition_time)
        n1 p1 i1 src1 lp1 ts1 vs1 ct1 bu1).timestamp =
      (mkProvenanceRecordDefault (provenanceClassDefaults class_definition_time)
        n2 p2 i2 src2 lp2 ts2 vs2 ct2 bu2).timestamp := rfl

end HybridPdf
